import Mathlib

/-!
Shallow embedding of the face-matching and attendance-state engine of the
`student_attendance` repository (`student_attendance_interfaces/models.py`,
`student_attendance_interfaces/services/face_recognition_service.py`).

Modelling conventions:
* machine floats become exact rationals (`ℚ`);
* a face embedding is a list of rationals; the third-party
  `face_recognition` library's distance function is an abstract parameter
  `d : Emb → Emb → ℚ` (the library computes the Euclidean norm; the
  repository's own code only consumes the resulting distance list);
* the pickled encoding blob is a `List ℚ` and `pickle.loads` is an abstract
  parameter `unpickle : Blob → Option Emb` (failure = the caught exception);
* the Django ORM tables are plain lists inside a `DB` record, in queryset
  iteration order; `get_or_create` / `save` / `delete` are explicit list
  operations;
* a caught Python exception that makes a function return `None` becomes an
  `Option` result.
-/

abbrev StudentId := String
abbrev CourseCode := String
abbrev Emb := List ℚ
abbrev Blob := List ℚ

inductive Angle
  | front
  | left
  | right
deriving DecidableEq

inductive AttStatus
  | present
  | absent
deriving DecidableEq

/-- Row of the `students` table (`models.Student`); fields not consulted by
the engine (names, email, dates) are omitted. -/
structure Student where
  student_id : StudentId
  course : CourseCode
  is_active : Bool
deriving DecidableEq

/-- Row of the `face_images` table (`models.FaceImage`). `face_encoding` is
the nullable pickled blob column. -/
structure FaceImage where
  id : Nat
  student : StudentId
  angle : Angle
  face_encoding : Option Blob
  is_active : Bool
deriving DecidableEq

/-- Row of the `session_logs` table (`models.SessionLog`).
`recognized_image` records whether an evidence image is attached. -/
structure SessionLog where
  session : Nat
  student : StudentId
  status : AttStatus
  recognized_at : Option Nat
  confidence_score : Option ℚ
  recognized_image : Bool
deriving DecidableEq

/-- Row of the `attendance_sessions` table (`models.AttendanceSession`);
only the fields the embedded operations consult. -/
structure AttendanceSession where
  id : Nat
  course : CourseCode
deriving DecidableEq

/-- The database state: the three tables the engine touches, plus the
auto-increment counter backing `FaceImage.id`. -/
structure DB where
  students : List Student
  face_images : List FaceImage
  session_logs : List SessionLog
  next_face_image_id : Nat
deriving DecidableEq

/-- `Student.objects.get(student_id=sid)` (primary-key lookup). -/
def studentLookup (db : DB) (sid : StudentId) : Option Student :=
  db.students.find? (fun s => decide (s.student_id = sid))

/-- `np.argmin` on a list of rationals: index of the minimum, first
occurrence winning (`np.argmin` returns the first minimal index). -/
def argmin : List ℚ → Nat
  | [] => 0
  | [_] => 0
  | x :: y :: ys =>
    if x ≤ (y :: ys).getD (argmin (y :: ys)) 0 then 0 else argmin (y :: ys) + 1

theorem argmin_cons_cons (x y : ℚ) (ys : List ℚ) :
    argmin (x :: y :: ys) =
      if x ≤ (y :: ys).getD (argmin (y :: ys)) 0 then 0 else argmin (y :: ys) + 1 :=
  rfl

theorem argmin_lt_length : ∀ (l : List ℚ), l ≠ [] → argmin l < l.length := by
  intro l
  induction l with
  | nil => intro h; exact absurd rfl h
  | cons x xs ih =>
    intro _
    cases xs with
    | nil => simp [argmin]
    | cons y ys =>
      rw [argmin_cons_cons]
      by_cases hx : x ≤ (y :: ys).getD (argmin (y :: ys)) 0
      · rw [if_pos hx]; simp
      · have h1 : argmin (y :: ys) < (y :: ys).length := ih (by simp)
        rw [if_neg hx]
        simp only [List.length_cons] at h1 ⊢
        omega

theorem argmin_le :
    ∀ (l : List ℚ) (j : Nat), j < l.length → l.getD (argmin l) 0 ≤ l.getD j 0 := by
  intro l
  induction l with
  | nil => intro j hj; simp at hj
  | cons x xs ih =>
    intro j hj
    cases xs with
    | nil =>
      have hj0 : j = 0 := by simpa using Nat.lt_one_iff.mp (by simpa using hj)
      subst hj0
      simp [argmin]
    | cons y ys =>
      rw [argmin_cons_cons]
      by_cases hx : x ≤ (y :: ys).getD (argmin (y :: ys)) 0
      · rw [if_pos hx]
        cases j with
        | zero => rw [List.getD_cons_zero]
        | succ j =>
          rw [List.getD_cons_zero, List.getD_cons_succ]
          exact le_trans hx (ih j (by simpa using Nat.lt_of_succ_lt_succ hj))
      · rw [if_neg hx]
        cases j with
        | zero =>
          rw [List.getD_cons_succ, List.getD_cons_zero]
          exact le_of_lt (lt_of_not_le hx)
        | succ j =>
          rw [List.getD_cons_succ, List.getD_cons_succ]
          exact ih j (by simpa using Nat.lt_of_succ_lt_succ hj)

theorem argmin_first :
    ∀ (l : List ℚ) (j : Nat), j < argmin l → l.getD (argmin l) 0 < l.getD j 0 := by
  intro l
  induction l with
  | nil => intro j hj; simp [argmin] at hj
  | cons x xs ih =>
    intro j hj
    cases xs with
    | nil => simp [argmin] at hj
    | cons y ys =>
      rw [argmin_cons_cons] at hj ⊢
      by_cases hx : x ≤ (y :: ys).getD (argmin (y :: ys)) 0
      · rw [if_pos hx] at hj
        exact absurd hj (Nat.not_lt_zero j)
      · rw [if_neg hx] at hj ⊢
        cases j with
        | zero =>
          rw [List.getD_cons_succ, List.getD_cons_zero]
          exact lt_of_not_le hx
        | succ j =>
          rw [List.getD_cons_succ, List.getD_cons_succ]
          exact ih j (Nat.lt_of_succ_lt_succ hj)

/-- `face_recognition.face_distance(known_encodings, q)`: the distance of
the query to every known embedding, in known-set order.  The metric `d`
abstracts the library's Euclidean norm. -/
def face_distance (d : Emb → Emb → ℚ) (known : List Emb) (q : Emb) : List ℚ :=
  known.map (fun e => d e q)

/-- `FaceRecognitionService.recognize_face_from_frame`, comparison part.
`frame_encodings` is the library's output for the frame (empty when no face
is detected); the code takes the first detected face, computes the distance
list, takes `np.argmin`, compares against the tolerance, and returns
`(student_id, 1 - distance)`; an out-of-range id lookup raises and the
enclosing `except` turns it into `(None, None)`. -/
def recognize_face_from_frame (d : Emb → Emb → ℚ) (tolerance : ℚ)
    (frame_encodings known_encodings : List Emb)
    (known_student_ids : List StudentId) : Option (StudentId × ℚ) :=
  match frame_encodings with
  | [] => none
  | q :: _ =>
    let ds := face_distance d known_encodings q
    if 0 < ds.length then
      if ds.getD (argmin ds) 0 ≤ tolerance then
        match known_student_ids[argmin ds]? with
        | some sid => some (sid, 1 - ds.getD (argmin ds) 0)
        | none => none
      else none
    else none

/-- A concrete metric instance used in witnesses and counterexamples
(squared Euclidean distance; any metric instantiates the abstract `d`). -/
def distEx (a b : Emb) : ℚ :=
  ((a.zip b).map (fun p => (p.1 - p.2) ^ 2)).sum

/-- The queryset of `FaceRecognitionService.load_known_faces`:
`FaceImage.objects.filter(angle='front', is_active=True, student__is_active=True)`
plus the optional `.filter(student__course=course)`. -/
def knownFaceQuery (db : DB) (course : Option CourseCode) : List FaceImage :=
  db.face_images.filter (fun fi =>
    decide (fi.angle = Angle.front) && fi.is_active &&
      (match studentLookup db fi.student with
       | some s =>
         s.is_active &&
           (match course with
            | none => true
            | some c => decide (s.course = c))
       | none => false))

/-- The loading loop of `load_known_faces`: for each record with a truthy
`face_encoding` blob that `pickle.loads` accepts, append the encoding and
the student id; a missing/empty blob or a deserialization failure skips the
record (the exception is caught and printed). -/
def collect_known (unpickle : Blob → Option Emb) :
    List FaceImage → List Emb × List StudentId
  | [] => ([], [])
  | fi :: rest =>
    let acc := collect_known unpickle rest
    match fi.face_encoding with
    | some blob =>
      if blob = [] then acc
      else
        match unpickle blob with
        | some enc => (enc :: acc.1, fi.student :: acc.2)
        | none => acc
    | none => acc

/-- `FaceRecognitionService.load_known_faces(course=None)`: the parallel
lists `(known_encodings, known_student_ids)`. -/
def load_known_faces (unpickle : Blob → Option Emb) (db : DB)
    (course : Option CourseCode) : List Emb × List StudentId :=
  collect_known unpickle (knownFaceQuery db course)

/-- `SessionLog.mark_present` (`models.py`): sets `status='present'` and
`recognized_at=now` unconditionally; `confidence_score` and
`recognized_image` only under Python truthiness of the arguments
(`if confidence:` / `if image:`), so `None` and `0` leave them untouched. -/
def SessionLog.mark_present (log : SessionLog) (confidence : Option ℚ)
    (image : Bool) (now : Nat) : SessionLog :=
  { log with
    status := AttStatus.present
    recognized_at := some now
    confidence_score :=
      match confidence with
      | some c => if c = 0 then log.confidence_score else some c
      | none => log.confidence_score
    recognized_image := if image then true else log.recognized_image }

/-- The `(session, student)` key predicate of
`SessionLog.objects.get_or_create` / the `unique_together` constraint. -/
def logKey (sess : Nat) (sid : StudentId) (l : SessionLog) : Bool :=
  decide (l.session = sess ∧ l.student = sid)

/-- The freshly created row of
`get_or_create(..., defaults={'status': 'absent'})`. -/
def freshLog (sess : Nat) (sid : StudentId) : SessionLog :=
  { session := sess, student := sid, status := AttStatus.absent,
    recognized_at := none, confidence_score := none,
    recognized_image := false }

/-- `SessionLog.objects.get_or_create(session=.., student=..,
defaults={'status': 'absent'})`. -/
def get_or_create_log (db : DB) (sess : Nat) (sid : StudentId) :
    SessionLog × DB :=
  match db.session_logs.find? (logKey sess sid) with
  | some l => (l, db)
  | none =>
    (freshLog sess sid,
     { db with session_logs := db.session_logs ++ [freshLog sess sid] })

/-- `session_log.save()`: writes the row back under its
`(session, student)` key. -/
def saveLog (db : DB) (log : SessionLog) : DB :=
  { db with
    session_logs :=
      db.session_logs.map
        (fun l => if logKey log.session log.student l then log else l) }

/-- `FaceRecognitionService.mark_attendance`: looks the student up by id
(`Student.DoesNotExist` is caught, printed, and turned into `None` with no
state change), get-or-creates the `(session, student)` log with `absent`
default, attaches the re-encoded frame as evidence when one is provided,
calls `mark_present(confidence=confidence)` and returns the saved log. -/
def mark_attendance (db : DB) (sess : Nat) (student_id : StudentId)
    (confidence : Option ℚ) (frame : Bool) (now : Nat) :
    Option SessionLog × DB :=
  match studentLookup db student_id with
  | none => (none, db)
  | some _ =>
    let p := get_or_create_log db sess student_id
    let log1 := if frame then { p.1 with recognized_image := true } else p.1
    let log2 := SessionLog.mark_present log1 confidence false now
    (some log2, saveLog p.2 log2)

/-- The loop of `FaceRecognitionService.initialize_session_logs` over the
student queryset, threading the database through `get_or_create`. -/
def initialize_loop (sess : Nat) : DB → List Student → List SessionLog × DB
  | db, [] => ([], db)
  | db, s :: ss =>
    let p := get_or_create_log db sess s.student_id
    let rest := initialize_loop sess p.2 ss
    (p.1 :: rest.1, rest.2)

/-- `FaceRecognitionService.initialize_session_logs(session)`: get-or-creates
an `absent` log for every student in `Student.objects.filter(is_active=True)`
(note: the queryset is not filtered by the session's course). -/
def initialize_session_logs (db : DB) (sess : AttendanceSession) :
    List SessionLog × DB :=
  initialize_loop sess.id db (db.students.filter (fun s => s.is_active))

/-- Result of `AttendanceSession.get_attendance_statistics`. -/
structure AttendanceStats where
  total_students : Nat
  present_count : Nat
  absent_count : Int
  attendance_percentage : ℚ
deriving DecidableEq

/-- `AttendanceSession.get_attendance_statistics` (`models.py`): total is
the count of active students of the session's course, present the count of
`status='present'` logs of the session, absent their difference, percentage
`present/total*100` guarded against a zero total. -/
def get_attendance_statistics (db : DB) (sess : AttendanceSession) :
    AttendanceStats :=
  let total :=
    (db.students.filter
      (fun s => s.is_active && decide (s.course = sess.course))).length
  let present :=
    (db.session_logs.filter
      (fun l =>
        decide (l.session = sess.id) &&
          decide (l.status = AttStatus.present))).length
  { total_students := total
    present_count := present
    absent_count := (total : Int) - (present : Int)
    attendance_percentage :=
      if 0 < total then (present : ℚ) / (total : ℚ) * 100 else 0 }

/-- The dict result of `save_student_face_images`:
`{'success': .., 'images': {angle: FaceImage}, 'errors': [..]}` (images are
recorded by row id, errors by the angle named in the message). -/
structure SaveResult where
  success : Bool
  images : List (Angle × Nat)
  errors : List Angle
deriving DecidableEq

/-- One iteration of the angle loop in
`FaceRecognitionService.save_student_face_images`: create the `FaceImage`
row, run the encoder on the stored image; on success store the pickled
encoding and record the row, otherwise record the error, delete the row and
clear the success flag. -/
def save_angle_image {Img : Type} (encode : Img → Option Emb)
    (pickleEnc : Emb → Blob) (st : SaveResult × DB) (student : StudentId)
    (angle : Angle) (image_file : Img) : SaveResult × DB :=
  let res := st.1
  let db := st.2
  let fi : FaceImage :=
    { id := db.next_face_image_id, student := student, angle := angle,
      face_encoding := none, is_active := true }
  let db1 : DB :=
    { db with
      face_images := db.face_images ++ [fi]
      next_face_image_id := db.next_face_image_id + 1 }
  match encode image_file with
  | some enc =>
    let fi2 := { fi with face_encoding := some (pickleEnc enc) }
    ({ res with images := res.images ++ [(angle, fi.id)] },
     { db1 with
       face_images :=
         db1.face_images.map (fun g => if g.id = fi.id then fi2 else g) })
  | none =>
    ({ res with success := false, errors := res.errors ++ [angle] },
     { db1 with
       face_images :=
         db1.face_images.filter (fun g => decide (g.id ≠ fi.id)) })

/-- `FaceRecognitionService.save_student_face_images(student, front, left,
right)`: the angle loop in dict insertion order front, left, right. -/
def save_student_face_images {Img : Type} (encode : Img → Option Emb)
    (pickleEnc : Emb → Blob) (db : DB) (student : StudentId)
    (front_image left_image right_image : Img) : SaveResult × DB :=
  let st1 :=
    save_angle_image encode pickleEnc
      ({ success := true, images := [], errors := [] }, db)
      student Angle.front front_image
  let st2 := save_angle_image encode pickleEnc st1 student Angle.left left_image
  save_angle_image encode pickleEnc st2 student Angle.right right_image

/-- The frame loop of `FaceRecognitionService.process_video_stream`: each
frame is recognized against the fixed known set; on a match whose id is
truthy and not yet in `recognized_students`, `mark_attendance` is called
with the frame as evidence and, when it returns a log, the id joins the
seen-set.  The result carries the final database, the final seen-set and
the trace of identities for which `mark_present` was actually invoked. -/
def stream_loop (d : Emb → Emb → ℚ) (tolerance : ℚ) (sessId : Nat)
    (known : List Emb) (ids : List StudentId) (now : Nat) :
    DB → List StudentId → List (List Emb) → DB × List StudentId × List StudentId
  | db, recognized, [] => (db, recognized, [])
  | db, recognized, f :: fs =>
    match recognize_face_from_frame d tolerance f known ids with
    | none => stream_loop d tolerance sessId known ids now db recognized fs
    | some (sid, conf) =>
      if sid ≠ "" ∧ sid ∉ recognized then
        match mark_attendance db sessId sid (some conf) true now with
        | (some _, db1) =>
          let r :=
            stream_loop d tolerance sessId known ids now db1
              (recognized ++ [sid]) fs
          (r.1, r.2.1, sid :: r.2.2)
        | (none, db1) =>
          stream_loop d tolerance sessId known ids now db1 recognized fs
      else stream_loop d tolerance sessId known ids now db recognized fs

/-- `FaceRecognitionService.process_video_stream(session)`: loads the known
set once at the start — with `load_known_faces()` and hence no course
filter — returns immediately when it is empty, then runs the frame loop
over the frames the capture yields while the session stays active. -/
def process_video_stream (d : Emb → Emb → ℚ) (tolerance : ℚ)
    (unpickle : Blob → Option Emb) (db : DB) (sess : AttendanceSession)
    (frames : List (List Emb)) (now : Nat) :
    DB × List StudentId × List StudentId :=
  let known := load_known_faces unpickle db none
  if known.1.length = 0 then (db, [], [])
  else stream_loop d tolerance sess.id known.1 known.2 now db [] frames

theorem recognize_cons (d : Emb → Emb → ℚ) (tol : ℚ) (q : Emb)
    (rest known : List Emb) (ids : List StudentId) :
    recognize_face_from_frame d tol (q :: rest) known ids =
      (if 0 < (face_distance d known q).length then
        if (face_distance d known q).getD (argmin (face_distance d known q)) 0
            ≤ tol then
          match ids[argmin (face_distance d known q)]? with
          | some sid =>
            some (sid,
              1 - (face_distance d known q).getD
                    (argmin (face_distance d known q)) 0)
          | none => none
        else none
      else none) :=
  rfl

theorem face_distance_length (d : Emb → Emb → ℚ) (known : List Emb) (q : Emb) :
    (face_distance d known q).length = known.length :=
  List.length_map known (fun e => d e q)

theorem getElem?_eq_some_getD {α : Type} [Inhabited α] (l : List α) (i : Nat)
    (h : i < l.length) : l[i]? = some (l.getD i default) := by
  rw [List.getElem?_eq_getElem h, List.getD_eq_getElem?_getD,
    List.getElem?_eq_getElem h]
  rfl

/-- Claim C1: the matcher of `recognize_face_from_frame` computes the
distance from the (first detected) query embedding to every known
embedding, selects the argmin, returns no-match for an empty known set,
returns `(known_student_ids[argmin], 1 - distance[argmin])` when the
minimal distance is at most the tolerance and no-match otherwise, and ties
at the minimal distance are broken in favour of the first occurrence in
known-set order. -/
theorem recognize_matcher_spec (d : Emb → Emb → ℚ) (tol : ℚ) (q : Emb)
    (rest known : List Emb) (ids : List StudentId)
    (hlen : ids.length = known.length) :
    (known = [] → recognize_face_from_frame d tol (q :: rest) known ids = none) ∧
    (∀ j, j < known.length →
      (face_distance d known q).getD (argmin (face_distance d known q)) 0 ≤
        (face_distance d known q).getD j 0) ∧
    (∀ j, j < argmin (face_distance d known q) →
      (face_distance d known q).getD (argmin (face_distance d known q)) 0 <
        (face_distance d known q).getD j 0) ∧
    (known ≠ [] →
      (face_distance d known q).getD (argmin (face_distance d known q)) 0 ≤ tol →
      recognize_face_from_frame d tol (q :: rest) known ids =
        some (ids.getD (argmin (face_distance d known q)) "",
          1 - (face_distance d known q).getD (argmin (face_distance d known q)) 0)) ∧
    (tol < (face_distance d known q).getD (argmin (face_distance d known q)) 0 →
      recognize_face_from_frame d tol (q :: rest) known ids = none) := by
  refine ⟨?_, ?_, ?_, ?_, ?_⟩
  · intro hk
    subst hk
    rw [recognize_cons]
    simp [face_distance]
  · intro j hj
    exact argmin_le (face_distance d known q) j (by rw [face_distance_length]; exact hj)
  · intro j hj
    exact argmin_first (face_distance d known q) j hj
  · intro hk hthr
    have hpos : 0 < (face_distance d known q).length := by
      rw [face_distance_length]
      exact List.length_pos.mpr hk
    have hidx : argmin (face_distance d known q) < ids.length := by
      rw [hlen, ← face_distance_length d known q]
      exact argmin_lt_length _ (List.length_pos.mp hpos)
    rw [recognize_cons, if_pos hpos, if_pos hthr,
      getElem?_eq_some_getD ids _ hidx]
    rfl
  · intro hthr
    rw [recognize_cons]
    by_cases hpos : 0 < (face_distance d known q).length
    · rw [if_pos hpos, if_neg (not_le.mpr hthr)]
    · rw [if_neg hpos]

theorem recognize_matcher_spec_witness :
    (["A", "B"] : List StudentId).length =
        ([[(0 : ℚ), 0], [10, 10]] : List Emb).length ∧
    recognize_face_from_frame distEx (3/5) [[(0 : ℚ), 0]]
        [[(0 : ℚ), 0], [10, 10]] ["A", "B"] = some ("A", 1) := by
  constructor
  · decide
  · have h :=
      (recognize_matcher_spec distEx (3/5) [(0 : ℚ), 0] []
        [[(0 : ℚ), 0], [10, 10]] ["A", "B"] (by decide)).2.2.2.1
        (by decide) (by norm_num [face_distance, distEx, argmin])
    exact h.trans (by norm_num [face_distance, distEx, argmin])

/-- Claim C9: the confidence on a successful match is exactly 1 minus the
minimal distance, unclamped; with minimal distance 9/4 > 1 and tolerance
3 ≥ 9/4 the matcher returns the negative confidence -5/4. -/
theorem confidence_unclamped (d : Emb → Emb → ℚ) (tol : ℚ) (q : Emb)
    (rest known : List Emb) (ids : List StudentId) (sid : StudentId) (conf : ℚ)
    (h : recognize_face_from_frame d tol (q :: rest) known ids = some (sid, conf)) :
    conf = 1 - (face_distance d known q).getD (argmin (face_distance d known q)) 0 ∧
    (∀ j, j < known.length →
      (face_distance d known q).getD (argmin (face_distance d known q)) 0 ≤
        (face_distance d known q).getD j 0) ∧
    recognize_face_from_frame distEx 3 [[(0 : ℚ)]] [[(3/2 : ℚ)]] ["A"] =
      some ("A", -(5/4 : ℚ)) ∧
    (-(5/4 : ℚ) < 0) := by
  refine ⟨?_, ?_,
    by norm_num [recognize_face_from_frame, face_distance, distEx, argmin],
    by norm_num⟩
  · rw [recognize_cons] at h
    by_cases hpos : 0 < (face_distance d known q).length
    · rw [if_pos hpos] at h
      by_cases hthr :
          (face_distance d known q).getD (argmin (face_distance d known q)) 0 ≤ tol
      · rw [if_pos hthr] at h
        cases hix : ids[argmin (face_distance d known q)]? with
        | none => rw [hix] at h; exact absurd h (by simp)
        | some sid2 =>
          rw [hix] at h
          simp only [Option.some.injEq, Prod.mk.injEq] at h
          exact h.2.symm
      · rw [if_neg hthr] at h
        exact absurd h (by simp)
    · rw [if_neg hpos] at h
      exact absurd h (by simp)
  · intro j hj
    exact argmin_le (face_distance d known q) j (by rw [face_distance_length]; exact hj)

theorem confidence_unclamped_witness :
    recognize_face_from_frame distEx (3/5) [[(1 : ℚ)]] [[(1 : ℚ)], [5]]
        ["A", "B"] = some ("A", 1) ∧
    (1 : ℚ) = 1 - (face_distance distEx [[(1 : ℚ)], [5]] [(1 : ℚ)]).getD
        (argmin (face_distance distEx [[(1 : ℚ)], [5]] [(1 : ℚ)])) 0 := by
  have h0 : recognize_face_from_frame distEx (3/5) [[(1 : ℚ)]]
      [[(1 : ℚ)], [5]] ["A", "B"] = some ("A", 1) := by
    norm_num [recognize_face_from_frame, face_distance, distEx, argmin]
  exact ⟨h0,
    (confidence_unclamped distEx (3/5) [(1 : ℚ)] [] [[(1 : ℚ)], [5]]
      ["A", "B"] "A" 1 h0).1⟩

theorem collect_known_lengths (unpickle : Blob → Option Emb) :
    ∀ l : List FaceImage,
      (collect_known unpickle l).1.length = (collect_known unpickle l).2.length := by
  intro l
  induction l with
  | nil => rfl
  | cons fi rest ih =>
    cases henc : fi.face_encoding with
    | none => simp [collect_known, henc, ih]
    | some blob =>
      by_cases hb : blob = []
      · simp [collect_known, henc, hb, ih]
      · cases hu : unpickle blob with
        | none => simp [collect_known, henc, hb, hu, ih]
        | some enc => simp [collect_known, henc, hb, hu, ih]

/-- Claim C10: `load_known_faces` appends an encoding exactly when it
appends the matching student id, so the two returned lists always have
equal length, and the matcher's id lookup at the argmin of the distance
array over the encodings is always in bounds. -/
theorem load_known_faces_parallel_safe (unpickle : Blob → Option Emb)
    (db : DB) (course : Option CourseCode) :
    (load_known_faces unpickle db course).1.length =
      (load_known_faces unpickle db course).2.length ∧
    (∀ (d : Emb → Emb → ℚ) (q : Emb),
      0 < (load_known_faces unpickle db course).1.length →
      argmin (face_distance d (load_known_faces unpickle db course).1 q) <
        (load_known_faces unpickle db course).2.length) := by
  refine ⟨collect_known_lengths unpickle _, ?_⟩
  intro d q hpos
  have h1 :
      (face_distance d (load_known_faces unpickle db course).1 q).length =
        (load_known_faces unpickle db course).1.length :=
    face_distance_length d _ q
  have h2 :
      argmin (face_distance d (load_known_faces unpickle db course).1 q) <
        (face_distance d (load_known_faces unpickle db course).1 q).length :=
    argmin_lt_length _ (by
      intro hnil
      rw [hnil] at h1
      simp at h1
      omega)
  rw [h1] at h2
  have heq :
      (load_known_faces unpickle db course).1.length =
        (load_known_faces unpickle db course).2.length :=
    collect_known_lengths unpickle (knownFaceQuery db course)
  rw [← heq]
  exact h2

/-- A concrete deserializer instance: the blob `[99]` is undeserializable
(`pickle.loads` raising), every other blob decodes to itself. -/
def unpickleEx : Blob → Option Emb :=
  fun b => if b = [(99 : ℚ)] then none else some b

/-- Store with one loadable front encoding (`S1`), one empty blob (`S2`,
falsy, skipped) and one undeserializable blob (`S3`, skipped). -/
def dbC10 : DB :=
  { students :=
      [⟨"S1", "COET", true⟩, ⟨"S2", "COET", true⟩, ⟨"S3", "BIT", true⟩]
    face_images :=
      [⟨0, "S1", Angle.front, some [(1 : ℚ)], true⟩,
       ⟨1, "S2", Angle.front, some [], true⟩,
       ⟨2, "S3", Angle.front, some [(99 : ℚ)], true⟩]
    session_logs := []
    next_face_image_id := 3 }

theorem load_known_faces_parallel_safe_witness :
    0 < (load_known_faces unpickleEx dbC10 none).1.length ∧
    argmin (face_distance distEx (load_known_faces unpickleEx dbC10 none).1
        [(0 : ℚ)]) <
      (load_known_faces unpickleEx dbC10 none).2.length :=
  ⟨by decide,
   (load_known_faces_parallel_safe unpickleEx dbC10 none).2 distEx [(0 : ℚ)]
     (by decide)⟩

/-- Session cohort of ten active `COET` students, three of them with a
`present` log for session 1 (the worked example of the spec). -/
def dbC6 : DB :=
  { students :=
      [⟨"S1", "COET", true⟩, ⟨"S2", "COET", true⟩, ⟨"S3", "COET", true⟩,
       ⟨"S4", "COET", true⟩, ⟨"S5", "COET", true⟩, ⟨"S6", "COET", true⟩,
       ⟨"S7", "COET", true⟩, ⟨"S8", "COET", true⟩, ⟨"S9", "COET", true⟩,
       ⟨"S10", "COET", true⟩]
    face_images := []
    session_logs :=
      [⟨1, "S1", AttStatus.present, some 3, some 1, false⟩,
       ⟨1, "S2", AttStatus.present, some 4, some 1, false⟩,
       ⟨1, "S3", AttStatus.present, some 5, some 1, false⟩,
       ⟨1, "S4", AttStatus.absent, none, none, false⟩,
       ⟨1, "S5", AttStatus.absent, none, none, false⟩,
       ⟨1, "S6", AttStatus.absent, none, none, false⟩,
       ⟨1, "S7", AttStatus.absent, none, none, false⟩,
       ⟨1, "S8", AttStatus.absent, none, none, false⟩,
       ⟨1, "S9", AttStatus.absent, none, none, false⟩,
       ⟨1, "S10", AttStatus.absent, none, none, false⟩]
    next_face_image_id := 0 }

def sessC6 : AttendanceSession := ⟨1, "COET"⟩

def sessC6b : AttendanceSession := ⟨2, "BA"⟩

/-- Claim C6: `get_attendance_statistics` returns the count of active
identities of the session's cohort as total (not the record count), the
count of `present` logs of the session as present, total minus present as
absent, and percentage `present/total*100` with the zero-total case pinned
to 0; on the spec's worked example (10 active, 3 present) it yields
`{total 10, present 3, absent 7, percentage 30}`. -/
theorem statistics_spec (db : DB) (sess : AttendanceSession) :
    (get_attendance_statistics db sess).total_students =
      (db.students.filter
        (fun s => s.is_active && decide (s.course = sess.course))).length ∧
    (get_attendance_statistics db sess).present_count =
      (db.session_logs.filter
        (fun l =>
          decide (l.session = sess.id) &&
            decide (l.status = AttStatus.present))).length ∧
    (get_attendance_statistics db sess).absent_count =
      ((get_attendance_statistics db sess).total_students : Int) -
        ((get_attendance_statistics db sess).present_count : Int) ∧
    ((get_attendance_statistics db sess).total_students = 0 →
      (get_attendance_statistics db sess).attendance_percentage = 0) ∧
    (0 < (get_attendance_statistics db sess).total_students →
      (get_attendance_statistics db sess).attendance_percentage =
        ((get_attendance_statistics db sess).present_count : ℚ) /
          ((get_attendance_statistics db sess).total_students : ℚ) * 100) ∧
    (get_attendance_statistics dbC6 sessC6).total_students = 10 ∧
    (get_attendance_statistics dbC6 sessC6).present_count = 3 ∧
    (get_attendance_statistics dbC6 sessC6).absent_count = 7 ∧
    (get_attendance_statistics dbC6 sessC6).attendance_percentage = 30 ∧
    (get_attendance_statistics dbC6 sessC6b).attendance_percentage = 0 := by
  refine ⟨rfl, rfl, rfl, ?_, ?_, by decide, by decide, by decide, ?_, ?_⟩
  · intro h
    simp only [get_attendance_statistics] at h ⊢
    have hneg :
        ¬ 0 < (db.students.filter
          (fun s => s.is_active && decide (s.course = sess.course))).length := by
      omega
    rw [if_neg hneg]
  · intro h
    simp only [get_attendance_statistics] at h ⊢
    rw [if_pos h]
  · have h1 : (get_attendance_statistics dbC6 sessC6).total_students = 10 := by
      decide
    have h2 : (get_attendance_statistics dbC6 sessC6).present_count = 3 := by
      decide
    simp only [get_attendance_statistics] at h1 h2 ⊢
    rw [h1, h2, if_pos (by omega)]
    norm_num
  · have h1 :
        (dbC6.students.filter
          (fun s => s.is_active && decide (s.course = sessC6b.course))).length
          = 0 := by decide
    simp only [get_attendance_statistics]
    rw [h1]
    norm_num

theorem statistics_spec_witness :
    0 < (get_attendance_statistics dbC6 sessC6).total_students ∧
    (get_attendance_statistics dbC6 sessC6).attendance_percentage =
      ((get_attendance_statistics dbC6 sessC6).present_count : ℚ) /
        ((get_attendance_statistics dbC6 sessC6).total_students : ℚ) * 100 :=
  ⟨by decide, (statistics_spec dbC6 sessC6).2.2.2.2.1 (by decide)⟩

/-- One known student, used for the unknown-identity scenarios. -/
def dbC7 : DB :=
  { students := [⟨"S1", "COET", true⟩], face_images := [], session_logs := [],
    next_face_image_id := 0 }

/-- Claim C7 (counterexample): calling `mark_attendance` for the unknown
identity `S2` does not surface any typed `UnknownIdentityError` — the
caught `Student.DoesNotExist` is swallowed into a plain `None` return
(indistinguishable in type from every other failure of the function),
though the attendance state is indeed unchanged. -/
theorem mark_attendance_unknown_counterexample :
    mark_attendance dbC7 1 "S2" (some 2) false 0 = (none, dbC7) ∧
    studentLookup dbC7 "S2" = none := by
  exact ⟨by decide, by decide⟩

/-- Claim C7 (amended): an unknown identity at `mark_attendance` makes the
call return `None` (the typed lookup exception is caught internally and
only logged, so callers see an untyped null result rather than a typed
error), it is not retried, and the attendance state is unchanged. -/
theorem mark_attendance_unknown_spec (db : DB) (sess : Nat) (sid : StudentId)
    (conf : Option ℚ) (frame : Bool) (now : Nat)
    (h : studentLookup db sid = none) :
    mark_attendance db sess sid conf frame now = (none, db) := by
  unfold mark_attendance
  rw [h]

theorem mark_attendance_unknown_spec_witness :
    studentLookup dbC7 "S3" = none ∧
    mark_attendance dbC7 2 "S3" none false 5 = (none, dbC7) :=
  ⟨by decide, mark_attendance_unknown_spec dbC7 2 "S3" none false 5 (by decide)⟩

def logC5 : SessionLog :=
  { session := 1, student := "S1", status := AttStatus.absent,
    recognized_at := none, confidence_score := none,
    recognized_image := false }

/-- Claim C5 (counterexample): `mark_present` does not overwrite the stored
confidence for every passed value — a second call passing confidence `0`
(falsy under `if confidence:`) leaves the previously stored confidence `2`
in place, so "last write wins for every confidence value passed" fails. -/
theorem mark_present_zero_confidence_counterexample :
    ((SessionLog.mark_present (SessionLog.mark_present logC5 (some 2) false 5)
        (some 0) false 6).confidence_score = some 2) ∧
    (some (0 : ℚ) ≠ some (2 : ℚ)) := by
  exact ⟨by decide, by decide⟩

/-- Store with the known student `S1` and no session logs, for the
`mark_attendance` creation path. -/
def dbC5 : DB :=
  { students := [⟨"S1", "COET", true⟩], face_images := [], session_logs := [],
    next_face_image_id := 0 }

/-- Claim C5 (amended): `mark_attendance` get-or-creates the
`(session, identity)` record with the `absent` default before
`mark_present` transitions it to `present`; the status after any
`mark_present` call is `present` (terminal under repetition) and the
timestamp is overwritten on every call, but the stored confidence is
overwritten only when the passed confidence is non-null and nonzero — a
null or zero confidence leaves the previous stored confidence in place. -/
theorem mark_present_terminal_metadata (db : DB) (sess : Nat)
    (sid : StudentId) (s : Student) (conf : Option ℚ) (frame : Bool)
    (now : Nat) (hs : studentLookup db sid = some s)
    (hfresh : db.session_logs.find? (logKey sess sid) = none) :
    (get_or_create_log db sess sid).1 = freshLog sess sid ∧
    (freshLog sess sid).status = AttStatus.absent ∧
    (∃ l, (mark_attendance db sess sid conf frame now).1 = some l ∧
      l.status = AttStatus.present ∧ l.recognized_at = some now ∧
      l.session = sess ∧ l.student = sid) ∧
    (∀ (log : SessionLog) (c2 : Option ℚ) (img : Bool) (t : Nat),
      (SessionLog.mark_present log c2 img t).status = AttStatus.present ∧
      (SessionLog.mark_present log c2 img t).recognized_at = some t) ∧
    (∀ (log : SessionLog) (c : ℚ) (img : Bool) (t : Nat), c ≠ 0 →
      (SessionLog.mark_present log (some c) img t).confidence_score = some c) ∧
    (∀ (log : SessionLog) (img : Bool) (t : Nat),
      (SessionLog.mark_present log (some 0) img t).confidence_score =
        log.confidence_score ∧
      (SessionLog.mark_present log none img t).confidence_score =
        log.confidence_score) := by
  have hgoc : get_or_create_log db sess sid =
      (freshLog sess sid,
       { db with session_logs := db.session_logs ++ [freshLog sess sid] }) := by
    unfold get_or_create_log
    rw [hfresh]
  refine ⟨by rw [hgoc], rfl, ?_, ?_, ?_, ?_⟩
  · cases frame with
    | false =>
      refine ⟨SessionLog.mark_present (freshLog sess sid) conf false now,
        ?_, rfl, rfl, rfl, rfl⟩
      unfold mark_attendance
      rw [hs, hgoc]
      rfl
    | true =>
      refine ⟨SessionLog.mark_present
          { freshLog sess sid with recognized_image := true } conf false now,
        ?_, rfl, rfl, rfl, rfl⟩
      unfold mark_attendance
      rw [hs, hgoc]
      rfl
  · intro log c2 img t
    exact ⟨rfl, rfl⟩
  · intro log c img t hc
    unfold SessionLog.mark_present
    simp only [if_neg hc]
  · intro log img t
    refine ⟨?_, rfl⟩
    simp [SessionLog.mark_present]

theorem mark_present_terminal_metadata_witness :
    studentLookup dbC5 "S1" = some ⟨"S1", "COET", true⟩ ∧
    dbC5.session_logs.find? (logKey 1 "S1") = none ∧
    (∃ l, (mark_attendance dbC5 1 "S1" (some 2) true 7).1 = some l ∧
      l.status = AttStatus.present ∧ l.recognized_at = some 7 ∧
      l.session = 1 ∧ l.student = "S1") :=
  ⟨by decide, by decide,
   (mark_present_terminal_metadata dbC5 1 "S1" ⟨"S1", "COET", true⟩ (some 2)
     true 7 (by decide) (by decide)).2.2.1⟩

theorem map_eq_self_of_mem {α : Type} (l : List α) (f : α → α)
    (h : ∀ a ∈ l, f a = a) : l.map f = l := by
  induction l with
  | nil => rfl
  | cons a l ih =>
    rw [List.map_cons, h a (by simp), ih (fun b hb => h b (by simp [hb]))]

theorem filter_eq_self_of_mem {α : Type} (l : List α) (p : α → Bool)
    (h : ∀ a ∈ l, p a = true) : l.filter p = l := by
  induction l with
  | nil => rfl
  | cons a l ih =>
    rw [List.filter_cons_of_pos (h a (by simp)),
      ih (fun b hb => h b (by simp [hb]))]

theorem save_angle_image_step {Img : Type} (encode : Img → Option Emb)
    (pickleEnc : Emb → Blob) (st : SaveResult × DB) (student : StudentId)
    (angle : Angle) (img : Img)
    (hid : ∀ fi ∈ st.2.face_images, fi.id < st.2.next_face_image_id) :
    (∃ tail,
      (save_angle_image encode pickleEnc st student angle img).2.face_images =
        st.2.face_images ++ tail) ∧
    (∀ fi ∈ (save_angle_image encode pickleEnc st student angle img).2.face_images,
      fi.id < (save_angle_image encode pickleEnc st student angle img).2.next_face_image_id) := by
  obtain ⟨res, db⟩ := st
  simp only at hid
  cases henc : encode img with
  | none =>
    have hfil :
        (db.face_images ++
          [({ id := db.next_face_image_id, student := student, angle := angle,
              face_encoding := none, is_active := true } : FaceImage)]).filter
            (fun g => decide (g.id ≠ db.next_face_image_id)) = db.face_images := by
      rw [List.filter_append,
        filter_eq_self_of_mem db.face_images _
          (fun g hg => by
            have := hid g hg
            simp only [decide_eq_true_eq]
            omega)]
      simp
    simp only [save_angle_image, henc, hfil]
    refine ⟨⟨[], by simp⟩, ?_⟩
    intro fi hfi
    have := hid fi hfi
    omega
  | some enc =>
    have hmap :
        (db.face_images ++
          [({ id := db.next_face_image_id, student := student, angle := angle,
              face_encoding := none, is_active := true } : FaceImage)]).map
            (fun g =>
              if g.id = db.next_face_image_id then
                ({ id := db.next_face_image_id, student := student,
                   angle := angle, face_encoding := some (pickleEnc enc),
                   is_active := true } : FaceImage)
              else g) =
          db.face_images ++
            [({ id := db.next_face_image_id, student := student, angle := angle,
                face_encoding := some (pickleEnc enc), is_active := true } :
              FaceImage)] := by
      rw [List.map_append,
        map_eq_self_of_mem db.face_images _
          (fun g hg => by
            have := hid g hg
            rw [if_neg (by omega)])]
      simp
    simp only [save_angle_image, henc, hmap]
    refine ⟨⟨_, rfl⟩, ?_⟩
    intro fi hfi
    rw [List.mem_append] at hfi
    cases hfi with
    | inl h => have := hid fi h; omega
    | inr h =>
      simp only [List.mem_singleton] at h
      subst h
      exact Nat.lt_succ_self db.next_face_image_id

theorem save_student_face_images_step (Img : Type) (encode : Img → Option Emb)
    (pickleEnc : Emb → Blob) (db : DB) (student : StudentId)
    (fimg limg rimg : Img)
    (hid : ∀ fi ∈ db.face_images, fi.id < db.next_face_image_id) :
    (∃ tail,
      (save_student_face_images encode pickleEnc db student fimg limg rimg).2.face_images =
        db.face_images ++ tail) := by
  have h1 := save_angle_image_step encode pickleEnc
    ({ success := true, images := [], errors := [] }, db) student Angle.front fimg hid
  obtain ⟨⟨t1, ht1⟩, hinv1⟩ := h1
  have h2 := save_angle_image_step encode pickleEnc
    (save_angle_image encode pickleEnc
      ({ success := true, images := [], errors := [] }, db) student Angle.front fimg)
    student Angle.left limg hinv1
  obtain ⟨⟨t2, ht2⟩, hinv2⟩ := h2
  have h3 := save_angle_image_step encode pickleEnc
    (save_angle_image encode pickleEnc
      (save_angle_image encode pickleEnc
        ({ success := true, images := [], errors := [] }, db) student Angle.front fimg)
      student Angle.left limg)
    student Angle.right rimg hinv2
  obtain ⟨⟨t3, ht3⟩, _⟩ := h3
  refine ⟨t1 ++ t2 ++ t3, ?_⟩
  show (save_angle_image encode pickleEnc
      (save_angle_image encode pickleEnc
        (save_angle_image encode pickleEnc
          ({ success := true, images := [], errors := [] }, db) student Angle.front fimg)
        student Angle.left limg)
      student Angle.right rimg).2.face_images = _
  rw [ht3, ht2, ht1]
  simp [List.append_assoc]

/-- Claim C3 (amended): a successful re-enrollment appends fresh records
and leaves every prior `FaceImage` row untouched — in particular a prior
active record for the same `(identity, angle)` stays active (no
deactivation, no deletion) — so the stored record count for any
`(identity, angle)` is non-decreasing across enrollments while the active
count can exceed 1. -/
theorem save_face_images_append_only {Img : Type} (encode : Img → Option Emb)
    (pickleEnc : Emb → Blob) (db : DB) (student : StudentId)
    (fimg limg rimg : Img)
    (hid : ∀ fi ∈ db.face_images, fi.id < db.next_face_image_id) :
    (∃ tail,
      (save_student_face_images encode pickleEnc db student fimg limg rimg).2.face_images =
        db.face_images ++ tail) ∧
    (∀ fi ∈ db.face_images,
      fi ∈ (save_student_face_images encode pickleEnc db student fimg limg rimg).2.face_images) ∧
    (∀ (sid2 : StudentId) (ang : Angle),
      (db.face_images.filter
        (fun g => decide (g.student = sid2 ∧ g.angle = ang))).length ≤
      ((save_student_face_images encode pickleEnc db student fimg limg rimg).2.face_images.filter
        (fun g => decide (g.student = sid2 ∧ g.angle = ang))).length) := by
  obtain ⟨tail, htail⟩ :=
    save_student_face_images_step Img encode pickleEnc db student fimg limg rimg hid
  refine ⟨⟨tail, htail⟩, ?_, ?_⟩
  · intro fi hfi
    rw [htail, List.mem_append]
    exact Or.inl hfi
  · intro sid2 ang
    rw [htail, List.filter_append, List.length_append]
    exact Nat.le_add_right _ _

/-- Empty enrollment store with one student, for the re-enrollment
scenarios. -/
def dbC3 : DB :=
  { students := [⟨"S1", "COET", true⟩], face_images := [], session_logs := [],
    next_face_image_id := 0 }

/-- Encoder instance that always finds a face. -/
def encodeEx : Nat → Option Emb := fun _ => some [(1 : ℚ)]

/-- `pickle.dumps` instance (the blob is the encoding itself). -/
def pickleEx : Emb → Blob := fun e => e

/-- Claim C3 (counterexample): two successful enrollments of the same
student leave two active `front` records — `save_student_face_images`
never marks the prior active record for the angle inactive, so the
"count of active records per (identity, angle) is at most 1" part of the
claim is false. -/
theorem reenroll_two_active_counterexample :
    (save_student_face_images encodeEx pickleEx dbC3 "S1" 0 1 2).1.success = true ∧
    (save_student_face_images encodeEx pickleEx
      (save_student_face_images encodeEx pickleEx dbC3 "S1" 0 1 2).2
      "S1" 0 1 2).1.success = true ∧
    ((save_student_face_images encodeEx pickleEx
        (save_student_face_images encodeEx pickleEx dbC3 "S1" 0 1 2).2
        "S1" 0 1 2).2.face_images.filter
      (fun g =>
        decide (g.student = "S1" ∧ g.angle = Angle.front ∧
          g.is_active = true))).length = 2 := by
  exact ⟨by decide, by decide, by decide⟩

theorem save_face_images_append_only_witness :
    (∀ fi ∈ dbC3.face_images, fi.id < dbC3.next_face_image_id) ∧
    (∃ tail,
      (save_student_face_images encodeEx pickleEx dbC3 "S1" 0 1 2).2.face_images =
        dbC3.face_images ++ tail) :=
  ⟨by decide,
   (save_face_images_append_only encodeEx pickleEx dbC3 "S1" 0 1 2 (by decide)).1⟩

theorem goc_found (db : DB) (sess : Nat) (sid : StudentId) (l : SessionLog)
    (h : db.session_logs.find? (logKey sess sid) = some l) :
    get_or_create_log db sess sid = (l, db) := by
  unfold get_or_create_log
  rw [h]

theorem goc_new (db : DB) (sess : Nat) (sid : StudentId)
    (h : db.session_logs.find? (logKey sess sid) = none) :
    get_or_create_log db sess sid =
      (freshLog sess sid,
       { db with session_logs := db.session_logs ++ [freshLog sess sid] }) := by
  unfold get_or_create_log
  rw [h]

/-- Number of stored logs for a `(session, student)` key. -/
def logCount (db : DB) (sess : Nat) (sid : StudentId) : Nat :=
  (db.session_logs.filter (logKey sess sid)).length

theorem find?_none_iff_logCount_zero (db : DB) (sess : Nat) (sid : StudentId) :
    db.session_logs.find? (logKey sess sid) = none ↔
      logCount db sess sid = 0 := by
  rw [List.find?_eq_none, logCount, List.length_eq_zero, List.filter_eq_nil_iff]

theorem logCount_append (logs : List SessionLog) (sess : Nat)
    (sid : StudentId) (l : SessionLog) :
    ((logs ++ [l]).filter (logKey sess sid)).length =
      (logs.filter (logKey sess sid)).length +
        (if logKey sess sid l then 1 else 0) := by
  rw [List.filter_append, List.length_append]
  by_cases h : logKey sess sid l <;> simp [h]

theorem initialize_loop_cons_found (sess : Nat) (db : DB) (s : Student)
    (ss : List Student) (l : SessionLog)
    (hf : db.session_logs.find? (logKey sess s.student_id) = some l) :
    initialize_loop sess db (s :: ss) =
      (l :: (initialize_loop sess db ss).1,
       (initialize_loop sess db ss).2) := by
  simp only [initialize_loop, goc_found db sess s.student_id l hf]

theorem initialize_loop_cons_new (sess : Nat) (db : DB) (s : Student)
    (ss : List Student)
    (hf : db.session_logs.find? (logKey sess s.student_id) = none) :
    initialize_loop sess db (s :: ss) =
      (freshLog sess s.student_id ::
        (initialize_loop sess
          { db with
            session_logs :=
              db.session_logs ++ [freshLog sess s.student_id] } ss).1,
       (initialize_loop sess
         { db with
           session_logs :=
             db.session_logs ++ [freshLog sess s.student_id] } ss).2) := by
  simp only [initialize_loop, goc_new db sess s.student_id hf]

theorem initialize_loop_fields (sess : Nat) :
    ∀ (ss : List Student) (db : DB),
      (initialize_loop sess db ss).2.students = db.students ∧
      (initialize_loop sess db ss).2.face_images = db.face_images ∧
      (initialize_loop sess db ss).2.next_face_image_id =
        db.next_face_image_id := by
  intro ss
  induction ss with
  | nil => intro db; exact ⟨rfl, rfl, rfl⟩
  | cons s ss ih =>
    intro db
    cases hf : db.session_logs.find? (logKey sess s.student_id) with
    | some l =>
      rw [initialize_loop_cons_found sess db s ss l hf]
      exact ih db
    | none =>
      rw [initialize_loop_cons_new sess db s ss hf]
      exact ih _

theorem initialize_loop_count (sess : Nat) :
    ∀ (ss : List Student) (db : DB) (sid : StudentId),
      logCount (initialize_loop sess db ss).2 sess sid =
        if sid ∈ ss.map Student.student_id ∧ logCount db sess sid = 0 then 1
        else logCount db sess sid := by
  intro ss
  induction ss with
  | nil =>
    intro db sid
    simp [initialize_loop]
  | cons s ss ih =>
    intro db sid
    cases hf : db.session_logs.find? (logKey sess s.student_id) with
    | some l =>
      have hpos : logCount db sess s.student_id ≠ 0 := by
        intro h0
        rw [← find?_none_iff_logCount_zero] at h0
        rw [hf] at h0
        exact Option.noConfusion h0
      rw [initialize_loop_cons_found sess db s ss l hf, ih db sid]
      by_cases hc : logCount db sess sid = 0
      · have hsid : sid ≠ s.student_id := by
          intro he
          exact hpos (he ▸ hc)
        exact if_congr (by simp only [List.map_cons, List.mem_cons]; tauto)
          rfl rfl
      · rw [if_neg (by tauto), if_neg (by tauto)]
    | none =>
      have hzero : logCount db sess s.student_id = 0 :=
        (find?_none_iff_logCount_zero db sess s.student_id).mp hf
      rw [initialize_loop_cons_new sess db s ss hf, ih _ sid]
      by_cases hsid : sid = s.student_id
      · subst hsid
        have hcnt1 :
            logCount
              { db with
                session_logs :=
                  db.session_logs ++ [freshLog sess s.student_id] } sess
              s.student_id = 1 := by
          have hk :
              logKey sess s.student_id (freshLog sess s.student_id) = true := by
            simp [logKey, freshLog]
          simp only [logCount]
          rw [logCount_append, hk]
          simp only [logCount] at hzero
          rw [hzero]
          simp
        rw [hcnt1, if_neg (fun hcon => Nat.one_ne_zero hcon.2),
          if_pos ⟨by simp, hzero⟩]
      · have hk : logKey sess sid (freshLog sess s.student_id) = false := by
          simp only [logKey, freshLog, decide_eq_false_iff_not, not_and]
          intro _ he
          exact hsid (Eq.symm he)
        have hcnt :
            logCount
              { db with
                session_logs :=
                  db.session_logs ++ [freshLog sess s.student_id] } sess sid =
              logCount db sess sid := by
          simp only [logCount]
          rw [logCount_append, hk]
          simp
        rw [hcnt]
        exact if_congr (by simp only [List.map_cons, List.mem_cons]; tauto)
          rfl rfl

theorem initialize_loop_logs_sub (sess : Nat) :
    ∀ (ss : List Student) (db : DB) (l : SessionLog),
      l ∈ (initialize_loop sess db ss).2.session_logs →
      l ∈ db.session_logs ∨ ∃ s ∈ ss, l = freshLog sess s.student_id := by
  intro ss
  induction ss with
  | nil =>
    intro db l hl
    exact Or.inl hl
  | cons s ss ih =>
    intro db l hl
    cases hf : db.session_logs.find? (logKey sess s.student_id) with
    | some l2 =>
      rw [initialize_loop_cons_found sess db s ss l2 hf] at hl
      cases ih db l hl with
      | inl h => exact Or.inl h
      | inr h =>
        obtain ⟨s2, hs2, he⟩ := h
        exact Or.inr ⟨s2, by simp [hs2], he⟩
    | none =>
      rw [initialize_loop_cons_new sess db s ss hf] at hl
      cases ih _ l hl with
      | inl h =>
        simp only [List.mem_append, List.mem_singleton] at h
        cases h with
        | inl h2 => exact Or.inl h2
        | inr h2 => exact Or.inr ⟨s, by simp, h2⟩
      | inr h =>
        obtain ⟨s2, hs2, he⟩ := h
        exact Or.inr ⟨s2, by simp [hs2], he⟩

theorem initialize_loop_noop (sess : Nat) :
    ∀ (ss : List Student) (db : DB),
      (∀ s ∈ ss, db.session_logs.find? (logKey sess s.student_id) ≠ none) →
      (initialize_loop sess db ss).2 = db := by
  intro ss
  induction ss with
  | nil => intro db _; rfl
  | cons s ss ih =>
    intro db hall
    cases hf : db.session_logs.find? (logKey sess s.student_id) with
    | none => exact absurd hf (hall s (by simp))
    | some l =>
      rw [initialize_loop_cons_found sess db s ss l hf]
      exact ih db (fun s2 hs2 => hall s2 (by simp [hs2]))

/-- Claim C4 (amended): for a session with no pre-existing logs,
`initialize_session_logs` creates exactly one `absent` record per active
student — drawn from `Student.objects.filter(is_active=True)`, i.e. from
all active students regardless of the session's course — and it is
idempotent: a second call changes nothing. -/
theorem initialize_logs_all_active_idempotent (db : DB)
    (sess : AttendanceSession)
    (hfresh : ∀ l ∈ db.session_logs, l.session ≠ sess.id) :
    (∀ s ∈ db.students, s.is_active = true →
      logCount (initialize_session_logs db sess).2 sess.id s.student_id = 1) ∧
    (∀ l ∈ (initialize_session_logs db sess).2.session_logs,
      l.session = sess.id →
      l.status = AttStatus.absent ∧
      ∃ s ∈ db.students, s.is_active = true ∧ s.student_id = l.student) ∧
    (initialize_session_logs (initialize_session_logs db sess).2 sess).2 =
      (initialize_session_logs db sess).2 := by
  have hzero : ∀ sid, logCount db sess.id sid = 0 := by
    intro sid
    simp only [logCount, List.length_eq_zero, List.filter_eq_nil_iff]
    intro l hl
    simp only [logKey, decide_eq_true_eq, not_and]
    intro hcon
    exact absurd hcon (hfresh l hl)
  refine ⟨?_, ?_, ?_⟩
  · intro s hs hact
    unfold initialize_session_logs
    rw [initialize_loop_count,
      if_pos ⟨List.mem_map_of_mem _ (List.mem_filter.mpr ⟨hs, hact⟩), hzero _⟩]
  · intro l hl hlsess
    have hsub :=
      initialize_loop_logs_sub sess.id
        (db.students.filter (fun s => s.is_active)) db l hl
    cases hsub with
    | inl h => exact absurd hlsess (hfresh l h)
    | inr h =>
      obtain ⟨s, hs, he⟩ := h
      subst he
      exact ⟨rfl, s, (List.mem_filter.mp hs).1, (List.mem_filter.mp hs).2, rfl⟩
  · have hst : (initialize_session_logs db sess).2.students = db.students :=
      (initialize_loop_fields sess.id
        (db.students.filter (fun s => s.is_active)) db).1
    unfold initialize_session_logs
    unfold initialize_session_logs at hst
    rw [hst]
    apply initialize_loop_noop
    intro s2 hs2
    rw [Ne, find?_none_iff_logCount_zero, initialize_loop_count,
      if_pos ⟨List.mem_map_of_mem _ hs2, hzero _⟩]
    exact Nat.one_ne_zero

/-- Store with one active student whose course differs from the session's
course. -/
def dbC4 : DB :=
  { students := [⟨"S1", "COET", true⟩], face_images := [], session_logs := [],
    next_face_image_id := 0 }

def sessC4 : AttendanceSession := ⟨1, "BA"⟩

/-- Claim C4 (counterexample): `initialize_session_logs` for a session of
course `BA` creates an attendance record for `S1`, who belongs to course
`COET` — the created records are not restricted to the session's cohort,
so "exactly the active identities in that session's cohort" is false. -/
theorem initialize_cohort_counterexample :
    (initialize_session_logs dbC4 sessC4).2.session_logs =
      [freshLog 1 "S1"] ∧
    (studentLookup dbC4 "S1").map Student.course = some "COET" ∧
    sessC4.course = "BA" ∧
    ("COET" : CourseCode) ≠ "BA" := by
  exact ⟨by decide, by decide, by decide, by decide⟩

theorem initialize_logs_all_active_idempotent_witness :
    (∀ l ∈ dbC4.session_logs, l.session ≠ sessC4.id) ∧
    (initialize_session_logs (initialize_session_logs dbC4 sessC4).2 sessC4).2 =
      (initialize_session_logs dbC4 sessC4).2 :=
  ⟨by decide,
   (initialize_logs_all_active_idempotent dbC4 sessC4 (by decide)).2.2⟩

theorem stream_loop_marked (d : Emb → Emb → ℚ) (tol : ℚ) (sessId : Nat)
    (known : List Emb) (ids : List StudentId) (now : Nat) :
    ∀ (fs : List (List Emb)) (db : DB) (recognized : List StudentId),
      (stream_loop d tol sessId known ids now db recognized fs).2.2.Nodup ∧
      ∀ sid ∈ (stream_loop d tol sessId known ids now db recognized fs).2.2,
        sid ∉ recognized := by
  intro fs
  induction fs with
  | nil =>
    intro db rec
    refine ⟨List.nodup_nil, ?_⟩
    intro sid h
    simp [stream_loop] at h
  | cons f fs ih =>
    intro db rec
    cases hr : recognize_face_from_frame d tol f known ids with
    | none =>
      simp only [stream_loop, hr]
      exact ih db rec
    | some p =>
      obtain ⟨sid, conf⟩ := p
      by_cases hg : sid ≠ "" ∧ sid ∉ rec
      · cases hm : mark_attendance db sessId sid (some conf) true now with
        | mk olog db1 =>
          cases olog with
          | some lg =>
            simp only [stream_loop, hr, if_pos hg, hm]
            have ihr := ih db1 (rec ++ [sid])
            refine ⟨?_, ?_⟩
            · refine List.nodup_cons.mpr ⟨?_, ihr.1⟩
              intro hmem
              exact (ihr.2 sid hmem) (by simp)
            · intro x hx
              rcases List.mem_cons.mp hx with he | h2
              · subst he
                exact hg.2
              · intro hxr
                exact (ihr.2 x h2) (by simp [hxr])
          | none =>
            simp only [stream_loop, hr, if_pos hg, hm]
            exact ih db1 rec
      · simp only [stream_loop, hr, if_neg hg]
        exact ih db rec

/-- Claim C8: within one run of the streaming loop, `mark_present` is
invoked at most once per identity (the per-run seen-set suppresses
re-marking), and a frame in which no face is detected changes no state and
raises no error — the loop just proceeds to the next frame. -/
theorem stream_dedup_and_silent_skip (d : Emb → Emb → ℚ) (tol : ℚ)
    (unpickle : Blob → Option Emb) (db : DB) (sess : AttendanceSession)
    (frames : List (List Emb)) (now : Nat) :
    (∀ sid,
      ((process_video_stream d tol unpickle db sess frames now).2.2).count sid
        ≤ 1) ∧
    (∀ (sessId : Nat) (known : List Emb) (ids : List StudentId) (db2 : DB)
        (recognized : List StudentId) (fs : List (List Emb)),
      stream_loop d tol sessId known ids now db2 recognized ([] :: fs) =
        stream_loop d tol sessId known ids now db2 recognized fs) := by
  constructor
  · intro sid
    simp only [process_video_stream]
    by_cases hk : (load_known_faces unpickle db none).1.length = 0
    · rw [if_pos hk]
      simp
    · rw [if_neg hk]
      have h :=
        stream_loop_marked d tol sess.id (load_known_faces unpickle db none).1
          (load_known_faces unpickle db none).2 now frames db []
      exact List.nodup_iff_count_le_one.mp h.1 sid
  · intro sessId known ids db2 rec fs
    have hrec : recognize_face_from_frame d tol [] known ids = none := rfl
    simp only [stream_loop, hrec]

theorem collect_known_ids_sub (unpickle : Blob → Option Emb) :
    ∀ (l : List FaceImage) (sid : StudentId),
      sid ∈ (collect_known unpickle l).2 → ∃ fi ∈ l, fi.student = sid := by
  intro l
  induction l with
  | nil =>
    intro sid h
    simp [collect_known] at h
  | cons fi rest ih =>
    intro sid h
    cases henc : fi.face_encoding with
    | none =>
      simp only [collect_known, henc] at h
      obtain ⟨g, hg, he⟩ := ih sid h
      exact ⟨g, by simp [hg], he⟩
    | some blob =>
      by_cases hb : blob = []
      · simp only [collect_known, henc, if_pos hb] at h
        obtain ⟨g, hg, he⟩ := ih sid h
        exact ⟨g, by simp [hg], he⟩
      · cases hu : unpickle blob with
        | none =>
          simp only [collect_known, henc, if_neg hb, hu] at h
          obtain ⟨g, hg, he⟩ := ih sid h
          exact ⟨g, by simp [hg], he⟩
        | some enc =>
          simp only [collect_known, henc, if_neg hb, hu] at h
          rcases List.mem_cons.mp h with he | h2
          · exact ⟨fi, by simp, he.symm⟩
          · obtain ⟨g, hg, hge⟩ := ih sid h2
            exact ⟨g, by simp [hg], hge⟩

/-- Claim C2 (amended): `process_video_stream` loads its known set exactly
once at the start of the run and keeps it fixed through the frame loop,
but it calls `load_known_faces()` with no course argument, so the set is
NOT scoped to the session's cohort: it contains the active front-image
encodings of all active students of every course. -/
theorem stream_known_set_unscoped (d : Emb → Emb → ℚ) (tol : ℚ)
    (unpickle : Blob → Option Emb) (db : DB) (sess : AttendanceSession)
    (frames : List (List Emb)) (now : Nat) :
    process_video_stream d tol unpickle db sess frames now =
      (if (load_known_faces unpickle db none).1.length = 0 then (db, [], [])
       else
        stream_loop d tol sess.id (load_known_faces unpickle db none).1
          (load_known_faces unpickle db none).2 now db [] frames) ∧
    (∀ sid ∈ (load_known_faces unpickle db none).2,
      ∃ fi ∈ db.face_images,
        fi.student = sid ∧ fi.angle = Angle.front ∧ fi.is_active = true ∧
        ∃ s, studentLookup db fi.student = some s ∧ s.is_active = true) := by
  constructor
  · rfl
  · intro sid hsid
    obtain ⟨fi, hfi, hfis⟩ :=
      collect_known_ids_sub unpickle (knownFaceQuery db none) sid hsid
    have hq := List.mem_filter.mp hfi
    have hcond := hq.2
    simp only [Bool.and_eq_true, decide_eq_true_eq] at hcond
    refine ⟨fi, hq.1, hfis, hcond.1.1, hcond.1.2, ?_⟩
    cases hlook : studentLookup db fi.student with
    | none =>
      rw [hlook] at hcond
      exact absurd hcond.2 (by simp)
    | some s =>
      rw [hlook] at hcond
      simp only [Bool.and_eq_true] at hcond
      exact ⟨s, rfl, hcond.2.1⟩

/-- Store with one active `COET` student with a loadable front encoding,
run against a `BA` session. -/
def dbC2 : DB :=
  { students := [⟨"S1", "COET", true⟩]
    face_images := [⟨0, "S1", Angle.front, some [(0 : ℚ)], true⟩]
    session_logs := []
    next_face_image_id := 1 }

def sessC2 : AttendanceSession := ⟨1, "BA"⟩

theorem stream_known_set_unscoped_witness :
    "S1" ∈ (load_known_faces unpickleEx dbC2 none).2 ∧
    (∃ fi ∈ dbC2.face_images,
      fi.student = "S1" ∧ fi.angle = Angle.front ∧ fi.is_active = true ∧
      ∃ s, studentLookup dbC2 fi.student = some s ∧ s.is_active = true) :=
  ⟨by decide,
   (stream_known_set_unscoped distEx (3/5) unpickleEx dbC2 sessC2 [] 0).2 "S1"
     (by decide)⟩

/-- Claim C2 (counterexample): the known set the Streaming Controller loads
for the `BA` session contains `S1`, an active student of course `COET`,
and a matching frame run marks `S1` present in the `BA` session — so
"every identity in the loaded known set belongs to the session's course"
is false. -/
theorem stream_cohort_scoping_counterexample :
    (load_known_faces unpickleEx dbC2 none).2 = ["S1"] ∧
    (studentLookup dbC2 "S1").map Student.course = some "COET" ∧
    sessC2.course = "BA" ∧
    (process_video_stream distEx (3/5) unpickleEx dbC2 sessC2 [[[(0 : ℚ)]]] 7).1.session_logs =
      [⟨1, "S1", AttStatus.present, some 7, some 1, true⟩] := by
  have hknown : load_known_faces unpickleEx dbC2 none = ([[(0 : ℚ)]], ["S1"]) := by
    decide
  have hrec :
      recognize_face_from_frame distEx (3/5) [[(0 : ℚ)]] [[(0 : ℚ)]] ["S1"] =
        some ("S1", 1) := by
    norm_num [recognize_face_from_frame, face_distance, distEx, argmin]
  have hmark : mark_attendance dbC2 1 "S1" (some 1) true 7 =
      (some ⟨1, "S1", AttStatus.present, some 7, some 1, true⟩,
       { dbC2 with
         session_logs := [⟨1, "S1", AttStatus.present, some 7, some 1, true⟩] }) := by
    decide
  refine ⟨by decide, by decide, by decide, ?_⟩
  simp only [process_video_stream, hknown]
  rw [if_neg (by decide)]
  simp only [stream_loop, sessC2, hrec]
  rw [if_pos (by decide), hmark]
